import Mathlib

/-!
Shallow embedding of `src/app.py`, a Streamlit hospital-management
application.  The persistent storage slots (`patients.json`,
`doctors.json`, `users.json`) are modelled as `Option Json`: `none` means
the backing file does not exist, `some j` means it holds the JSON
document `j`.  The SHA-256 hex digest from Python's `hashlib` (an
external library, not part of this repository) is modelled as an
abstract parameter `sha : String → String`; every definition that the
source builds on `hash_password` is parametrised by it.
-/

namespace HospitalApp

/-- JSON documents, the values that `json.load` / `json.dump` move between
files and Python objects.  Objects are insertion-ordered key/value lists,
matching Python dict semantics for dicts serialised by this program
(which have unique keys). -/
inductive Json where
  | null : Json
  | bool : Bool → Json
  | num : Int → Json
  | str : String → Json
  | arr : List Json → Json
  | obj : List (String × Json) → Json

/-- `load_records(file)` (src/app.py:13-17): return the parsed file if it
exists, else the empty list `[]`. -/
def load_records (file : Option Json) : Json :=
  match file with
  | some j => j
  | none => Json.arr []

/-- `load_users()` (src/app.py:24-32): if the users file exists, parse it
and return it when the root is a dict, else return `{}`; if the file does
not exist, return `{}`.  The returned dict is its ordered key/value list. -/
def load_users (file : Option Json) : List (String × Json) :=
  match file with
  | some (Json.obj kvs) => kvs
  | some _ => []
  | none => []

/-- Key lookup in a Python dict represented as its ordered key/value
list: `username in users` / `users[username]`.  Dicts built by this
program have unique keys, so first-match lookup is dict lookup. -/
def find_user (username : String) : List (String × Json) → Option Json
  | [] => none
  | (k, v) :: rest => if username = k then some v else find_user username rest

/-- `hash_password(password)` (src/app.py:37-38): the SHA-256 hex digest
of the password, with the digest function `sha` abstracted (it comes from
the external `hashlib` library). -/
def hash_password (sha : String → String) (password : String) : String :=
  sha password

/-- `verify_user(username, password)` (src/app.py:40-42): true iff
`username` is a key of the loaded users dict and the stored value equals
`hash_password(password)` (a string comparison; a non-string stored value
compares unequal). -/
def verify_user (sha : String → String) (file : Option Json)
    (username password : String) : Bool :=
  match find_user username (load_users file) with
  | some (Json.str d) => d == hash_password sha password
  | some _ => false
  | none => false

/-- `add_user(username, password)` (src/app.py:44-50): load the users
dict; if `username` is already a key return `False` without writing;
else insert `username -> hash_password(password)`, save, return `True`.
Result: (returned boolean, users-file state after the call). -/
def add_user (sha : String → String) (file : Option Json)
    (username password : String) : Bool × Option Json :=
  match find_user username (load_users file) with
  | some _ => (false, file)
  | none =>
      (true, some (Json.obj (load_users file ++
        [(username, Json.str (hash_password sha password))])))

/-- Streamlit session state (src/app.py:57-60): `logged_in` starts
`False`, `username` starts `""`. -/
structure Session where
  logged_in : Bool
  username : String
deriving DecidableEq

/-- Initial session state (src/app.py:57-60). -/
def init_session : Session := ⟨false, ""⟩

/-- The authentication-related interactions a user can trigger. -/
inductive Op where
  | login (username password : String) : Op
  | logout : Op
  | register (username password : String) : Op

/-- One interaction against the (users-file, session) state.
`login` (src/app.py:98-104) is reachable only when not logged in
(src/app.py:77) and flips the session on `verify_user` success,
leaving it untouched on failure.  `logout` (src/app.py:203-207) is
reachable only when logged in and unconditionally clears the session.
`register` (src/app.py:85-92) is reachable only when not logged in,
calls `add_user` only when both fields are non-empty (Python string
truthiness at src/app.py:86), and never touches the session. -/
def step (sha : String → String) (s : Option Json × Session) (op : Op) :
    Option Json × Session :=
  match op with
  | Op.login u p =>
      if s.2.logged_in then s
      else if verify_user sha s.1 u p then (s.1, ⟨true, u⟩) else s
  | Op.logout =>
      if s.2.logged_in then (s.1, ⟨false, ""⟩) else s
  | Op.register u p =>
      if s.2.logged_in then s
      else if u ≠ "" ∧ p ≠ "" then ((add_user sha s.1 u p).2, s.2) else s

/-- Run a sequence of interactions from a starting state. -/
def run (sha : String → String) (s : Option Json × Session) (ops : List Op) :
    Option Json × Session :=
  ops.foldl (step sha) s

/-- A sequence of sign-up attempts `(username, password)` applied to the
users-file state, keeping only the file evolution (src/app.py:85-92). -/
def run_registrations (sha : String → String) (file : Option Json)
    (ops : List (String × String)) : Option Json :=
  ops.foldl (fun st op => (add_user sha st op.1 op.2).2) file

/-- A patient record as built at src/app.py:133. -/
structure Patient where
  id : Nat
  name : String
  age : Nat
  gender : String
  city : String
  doctor : String
  timestamp : String
deriving DecidableEq

/-- A doctor record as built at src/app.py:174. -/
structure Doctor where
  id : Nat
  name : String
  specialization : String
  city : String
  timestamp : String
deriving DecidableEq

/-- Options of the "Assign Doctor" selectbox (src/app.py:127):
the doctors' names when the list is non-empty, else the single
sentinel entry "No doctor available". -/
def doctor_options (doctors : List Doctor) : List String :=
  if doctors.isEmpty then ["No doctor available"] else doctors.map Doctor.name

/-- The field values submitted through the Add Patient form
(src/app.py:122-128). -/
structure PatientInput where
  name : String
  age : Nat
  gender : String
  city : String
  doctor : String
  timestamp : String
deriving DecidableEq

/-- The Add Patient submit handler (src/app.py:130-138): if `name`,
`city` and `doctor` are non-empty (Python truthiness) and `doctor` is
not the sentinel "No doctor available", assign id `len(patients) + 1`,
append the record and persist, signalling success with the id; else
signal a validation failure and leave the collection untouched.
Result: (assigned id if any, patient collection after the call). -/
def add_patient (patients : List Patient) (inp : PatientInput) :
    Option Nat × List Patient :=
  if inp.name ≠ "" ∧ inp.city ≠ "" ∧ inp.doctor ≠ "" ∧
      inp.doctor ≠ "No doctor available" then
    (some (patients.length + 1),
     patients ++ [⟨patients.length + 1, inp.name, inp.age, inp.gender,
                   inp.city, inp.doctor, inp.timestamp⟩])
  else (none, patients)

/-- Submit the Add Patient form once per input, in order. -/
def add_patients_list (patients : List Patient) (inputs : List PatientInput) :
    List Patient :=
  inputs.foldl (fun ps inp => (add_patient ps inp).2) patients

/-- Python's substring test `needle in haystack` on lists of
characters: true iff `needle` occurs contiguously in `haystack`
(always true for the empty needle). -/
def contains_chars (needle : List Char) : List Char → Bool
  | [] => needle.isEmpty
  | c :: rest => needle.isPrefixOf (c :: rest) || contains_chars needle rest

/-- Python's `s.lower()`, character by character. -/
def lower_chars (s : String) : List Char := s.toList.map Char.toLower

/-- The View Patients filter (src/app.py:148-149): keep the patients
whose lower-cased name contains the lower-cased search string. -/
def filtered_patients (patients : List Patient) (search_name : String) :
    List Patient :=
  patients.filter
    (fun p => contains_chars (lower_chars search_name) (lower_chars p.name))

/-- The View Doctors filter (src/app.py:189-190). -/
def filtered_doctors (doctors : List Doctor) (search_name : String) :
    List Doctor :=
  doctors.filter
    (fun d => contains_chars (lower_chars search_name) (lower_chars d.name))

/-! ## Helper lemmas about the credential store -/

theorem find_user_nil (u : String) : find_user u [] = none := rfl

theorem find_user_cons (u k : String) (v : Json) (rest : List (String × Json)) :
    find_user u ((k, v) :: rest) = if u = k then some v else find_user u rest := rfl

theorem find_user_append_of_none {u : String} {l1 : List (String × Json)}
    (h : find_user u l1 = none) (l2 : List (String × Json)) :
    find_user u (l1 ++ l2) = find_user u l2 := by
  induction l1 with
  | nil => rfl
  | cons kv rest ih =>
      obtain ⟨k, v⟩ := kv
      rw [find_user_cons] at h
      rw [List.cons_append, find_user_cons]
      by_cases hk : u = k
      · simp [hk] at h
      · simp only [if_neg hk] at h ⊢
        exact ih h

theorem find_user_append_of_some {u : String} {l1 : List (String × Json)}
    {v : Json} (h : find_user u l1 = some v) (l2 : List (String × Json)) :
    find_user u (l1 ++ l2) = some v := by
  induction l1 with
  | nil => exact absurd h (by simp [find_user])
  | cons kv rest ih =>
      obtain ⟨k, x⟩ := kv
      rw [find_user_cons] at h
      rw [List.cons_append, find_user_cons]
      by_cases hk : u = k
      · rw [if_pos hk] at h ⊢
        exact h
      · rw [if_neg hk] at h ⊢
        exact ih h

theorem find_user_singleton_self (u : String) (v : Json) :
    find_user u [(u, v)] = some v := by
  rw [find_user_cons, if_pos rfl]

theorem find_user_singleton_other {u w : String} (h : u ≠ w) (v : Json) :
    find_user u [(w, v)] = none := by
  rw [find_user_cons, if_neg h]
  rfl

theorem find_user_some_mem {u : String} {l : List (String × Json)} {v : Json}
    (h : find_user u l = some v) : (u, v) ∈ l := by
  induction l with
  | nil => exact absurd h (by simp [find_user])
  | cons kv rest ih =>
      obtain ⟨k, w⟩ := kv
      rw [find_user_cons] at h
      by_cases hk : u = k
      · rw [if_pos hk] at h
        subst hk
        obtain rfl : w = v := Option.some.injEq .. ▸ h
        exact List.mem_cons_self ..
      · rw [if_neg hk] at h
        exact List.mem_cons_of_mem _ (ih h)

theorem add_user_fst_true_iff (sha : String → String) (file : Option Json)
    (u p : String) :
    (add_user sha file u p).1 = true ↔ find_user u (load_users file) = none := by
  unfold add_user
  cases h : find_user u (load_users file) <;> simp [h]

theorem add_user_snd_of_none {file : Option Json} {u : String}
    (h : find_user u (load_users file) = none) (sha : String → String) (p : String) :
    (add_user sha file u p).2 =
      some (Json.obj (load_users file ++
        [(u, Json.str (hash_password sha p))])) := by
  unfold add_user
  rw [h]

theorem add_user_snd_of_some {file : Option Json} {u : String} {v : Json}
    (h : find_user u (load_users file) = some v) (sha : String → String) (p : String) :
    (add_user sha file u p).2 = file := by
  unfold add_user
  rw [h]

theorem add_user_fst_false_of_some {file : Option Json} {u : String} {v : Json}
    (h : find_user u (load_users file) = some v) (sha : String → String) (p : String) :
    (add_user sha file u p).1 = false := by
  unfold add_user
  rw [h]

theorem load_users_obj (kvs : List (String × Json)) :
    load_users (some (Json.obj kvs)) = kvs := rfl

/-- After a successful sign-up for `u`, the stored digest for `u` is the
hash of the password just registered. -/
theorem stored_digest_after_add {sha : String → String} {file : Option Json}
    {u p : String} (h : (add_user sha file u p).1 = true) :
    find_user u (load_users (add_user sha file u p).2) =
      some (Json.str (hash_password sha p)) := by
  have hnone := (add_user_fst_true_iff sha file u p).mp h
  rw [add_user_snd_of_none hnone, load_users_obj,
    find_user_append_of_none hnone, find_user_singleton_self]

/-! ## C1 -/

/-- C1: if `add_user u p1` succeeded, a subsequent `add_user u p2`
returns `False`, leaves the users file unchanged, and the stored digest
for `u` remains `hash_password p1`. -/
theorem registration_uniqueness (sha : String → String) (file : Option Json)
    (u p1 p2 : String) (h : (add_user sha file u p1).1 = true) :
    (add_user sha (add_user sha file u p1).2 u p2).1 = false ∧
    (add_user sha (add_user sha file u p1).2 u p2).2 = (add_user sha file u p1).2 ∧
    find_user u (load_users (add_user sha file u p1).2) =
      some (Json.str (hash_password sha p1)) := by
  have hst := stored_digest_after_add h
  exact ⟨add_user_fst_false_of_some hst sha p2, add_user_snd_of_some hst sha p2, hst⟩

/-- Witness for C1 at a concrete input: registering "alice" twice on an
absent users file. -/
theorem registration_uniqueness_witness :
    (add_user id (add_user id none "alice" "pw1").2 "alice" "pw2").1 = false ∧
    (add_user id (add_user id none "alice" "pw1").2 "alice" "pw2").2 =
      (add_user id none "alice" "pw1").2 ∧
    find_user "alice" (load_users (add_user id none "alice" "pw1").2) =
      some (Json.str (hash_password id "pw1")) :=
  registration_uniqueness id none "alice" "pw1" "pw2" rfl

/-! ## C2 -/

theorem verify_user_of_stored {file : Option Json} {u d : String}
    (h : find_user u (load_users file) = some (Json.str d))
    (sha : String → String) (p : String) :
    verify_user sha file u p = (d == hash_password sha p) := by
  unfold verify_user
  rw [h]

theorem verify_user_of_absent {file : Option Json} {u : String}
    (h : find_user u (load_users file) = none)
    (sha : String → String) (p : String) :
    verify_user sha file u p = false := by
  unfold verify_user
  rw [h]

/-- A sign-up attempt for a different username does not change what is
stored under `u`. -/
theorem find_user_after_add_other (sha : String → String) (file : Option Json)
    {u w : String} (hw : w ≠ u) (q : String) :
    find_user u (load_users (add_user sha file w q).2) =
      find_user u (load_users file) := by
  cases h : find_user w (load_users file) with
  | some v => rw [add_user_snd_of_some h]
  | none =>
      rw [add_user_snd_of_none h, load_users_obj]
      cases hu : find_user u (load_users file) with
      | some v => exact find_user_append_of_some hu _
      | none =>
          rw [find_user_append_of_none hu,
            find_user_singleton_other (fun e => hw e.symm)]

/-- What is stored under `u` survives any sequence of sign-up attempts
for usernames other than `u`. -/
theorem find_user_run_registrations (sha : String → String) (file : Option Json)
    (u : String) (ops : List (String × String))
    (hops : ∀ op ∈ ops, op.1 ≠ u) :
    find_user u (load_users (run_registrations sha file ops)) =
      find_user u (load_users file) := by
  induction ops generalizing file with
  | nil => rfl
  | cons op rest ih =>
      have hstep := find_user_after_add_other sha file
        (hops op (List.mem_cons_self ..)) op.2
      have hrest := ih (add_user sha file op.1 op.2).2
        (fun o ho => hops o (List.mem_cons_of_mem _ ho))
      calc find_user u (load_users (run_registrations sha
              (add_user sha file op.1 op.2).2 rest))
          = find_user u (load_users (add_user sha file op.1 op.2).2) := hrest
        _ = find_user u (load_users file) := hstep

/-- C2: after `add_user u p` succeeds and any sequence of sign-up
attempts none of which uses username `u`, `verify_user u p` is true,
`verify_user u p'` is false for every `p' ≠ p` (with the digest
function injective — SHA-256 is collision-resistant), and
`verify_user u2 q` is false for every username `u2` absent from the
credential store and every `q`. -/
theorem verification_correctness (sha : String → String)
    (hinj : Function.Injective sha) (file : Option Json) (u p : String)
    (h : (add_user sha file u p).1 = true) (ops : List (String × String))
    (hops : ∀ op ∈ ops, op.1 ≠ u) :
    verify_user sha (run_registrations sha (add_user sha file u p).2 ops) u p
      = true ∧
    (∀ pbad : String, pbad ≠ p →
      verify_user sha (run_registrations sha (add_user sha file u p).2 ops) u pbad
        = false) ∧
    (∀ u2 q : String,
      find_user u2 (load_users (run_registrations sha (add_user sha file u p).2 ops))
        = none →
      verify_user sha (run_registrations sha (add_user sha file u p).2 ops) u2 q
        = false) := by
  have hst : find_user u
      (load_users (run_registrations sha (add_user sha file u p).2 ops)) =
      some (Json.str (hash_password sha p)) := by
    rw [find_user_run_registrations sha _ u ops hops, stored_digest_after_add h]
  refine ⟨?_, fun pbad hbad => ?_, fun u2 q habs => verify_user_of_absent habs sha q⟩
  · rw [verify_user_of_stored hst sha p]
    exact beq_self_eq_true _
  · rw [verify_user_of_stored hst sha pbad]
    have hne : hash_password sha p ≠ hash_password sha pbad :=
      fun e => hbad (hinj e).symm
    exact beq_eq_false_iff_ne.mpr hne

/-- Witness for C2 at a concrete input: "alice" registered on an absent
file, then "bob" registered; the digest function is the (injective)
identity function. -/
theorem verification_correctness_witness :
    verify_user id (run_registrations id (add_user id none "alice" "pa").2
      [("bob", "pb")]) "alice" "pa" = true ∧
    verify_user id (run_registrations id (add_user id none "alice" "pa").2
      [("bob", "pb")]) "alice" "wrong" = false ∧
    verify_user id (run_registrations id (add_user id none "alice" "pa").2
      [("bob", "pb")]) "carol" "pa" = false := by
  have h := verification_correctness id (fun a b e => e) none "alice" "pa" rfl
    [("bob", "pb")] (by decide)
  exact ⟨h.1, h.2.1 "wrong" (by decide), h.2.2 "carol" "pa" rfl⟩

/-! ## C3 and C4: session state -/

theorem verify_user_true_find_ne_none {sha : String → String}
    {file : Option Json} {u p : String}
    (h : verify_user sha file u p = true) :
    find_user u (load_users file) ≠ none := by
  intro habs
  rw [verify_user_of_absent habs sha p] at h
  exact Bool.false_ne_true h

theorem step_login_logged {sha : String → String} {s : Option Json × Session}
    {u p : String} (hb : s.2.logged_in = true) :
    step sha s (Op.login u p) = s := by
  simp [step, hb]

theorem step_login_success {sha : String → String} {s : Option Json × Session}
    {u p : String} (hb : s.2.logged_in = false)
    (hv : verify_user sha s.1 u p = true) :
    step sha s (Op.login u p) = (s.1, (⟨true, u⟩ : Session)) := by
  simp [step, hb, hv]

theorem step_login_fail {sha : String → String} {s : Option Json × Session}
    {u p : String} (hb : s.2.logged_in = false)
    (hv : verify_user sha s.1 u p = false) :
    step sha s (Op.login u p) = s := by
  simp [step, hb, hv]

theorem step_logout_logged {sha : String → String} {s : Option Json × Session}
    (hb : s.2.logged_in = true) :
    step sha s Op.logout = (s.1, (⟨false, ""⟩ : Session)) := by
  simp [step, hb]

theorem step_logout_anon {sha : String → String} {s : Option Json × Session}
    (hb : s.2.logged_in = false) :
    step sha s Op.logout = s := by
  simp [step, hb]

theorem step_register_logged {sha : String → String} {s : Option Json × Session}
    {u p : String} (hb : s.2.logged_in = true) :
    step sha s (Op.register u p) = s := by
  simp [step, hb]

theorem step_register_valid {sha : String → String} {s : Option Json × Session}
    {u p : String} (hb : s.2.logged_in = false) (hu : u ≠ "") (hp : p ≠ "") :
    step sha s (Op.register u p) = ((add_user sha s.1 u p).2, s.2) := by
  simp [step, hb, hu, hp]

theorem step_register_invalid {sha : String → String} {s : Option Json × Session}
    {u p : String} (hb : s.2.logged_in = false) (hg : ¬(u ≠ "" ∧ p ≠ "")) :
    step sha s (Op.register u p) = s := by
  simp only [step, hb, Bool.false_eq_true, if_false]
  rw [if_neg hg]

/-- One interaction preserves the session invariant: store keys stay
non-empty, `username` is non-empty exactly when `logged_in`, and a
logged-in `username` is a key of the credential store. -/
theorem step_preserves_invariant (sha : String → String)
    (s : Option Json × Session) (op : Op)
    (hwf : ∀ kv ∈ load_users s.1, kv.1 ≠ "")
    (hiff : s.2.username ≠ "" ↔ s.2.logged_in = true)
    (hkey : s.2.logged_in = true →
      find_user s.2.username (load_users s.1) ≠ none) :
    (∀ kv ∈ load_users (step sha s op).1, kv.1 ≠ "") ∧
    ((step sha s op).2.username ≠ "" ↔ (step sha s op).2.logged_in = true) ∧
    ((step sha s op).2.logged_in = true →
      find_user (step sha s op).2.username (load_users (step sha s op).1) ≠ none) := by
  cases op with
  | login u p =>
      cases hb : s.2.logged_in with
      | true => rw [step_login_logged hb]; exact ⟨hwf, hiff, hkey⟩
      | false =>
          cases hv : verify_user sha s.1 u p with
          | true =>
              have hne := verify_user_true_find_ne_none hv
              obtain ⟨v, hfind⟩ := Option.ne_none_iff_exists'.mp hne
              have hu : u ≠ "" := hwf (u, v) (find_user_some_mem hfind)
              rw [step_login_success hb hv]
              exact ⟨hwf, ⟨fun _ => rfl, fun _ => hu⟩, fun _ => hne⟩
          | false => rw [step_login_fail hb hv]; exact ⟨hwf, hiff, hkey⟩
  | logout =>
      cases hb : s.2.logged_in with
      | true =>
          rw [step_logout_logged hb]
          exact ⟨hwf, ⟨fun h => absurd rfl h, fun h => absurd h Bool.false_ne_true⟩,
            fun h => absurd h Bool.false_ne_true⟩
      | false => rw [step_logout_anon hb]; exact ⟨hwf, hiff, hkey⟩
  | register u p =>
      cases hb : s.2.logged_in with
      | true => rw [step_register_logged hb]; exact ⟨hwf, hiff, hkey⟩
      | false =>
          by_cases hg : u ≠ "" ∧ p ≠ ""
          · rw [step_register_valid hb hg.1 hg.2]
            refine ⟨?_, hiff, fun h' => absurd (hb ▸ h') Bool.false_ne_true⟩
            cases hf : find_user u (load_users s.1) with
            | some v => rw [add_user_snd_of_some hf]; exact hwf
            | none =>
                rw [add_user_snd_of_none hf, load_users_obj]
                intro kv hkv
                rcases List.mem_append.mp hkv with hl | hr
                · exact hwf kv hl
                · obtain rfl : kv = (u, Json.str (hash_password sha p)) :=
                    List.mem_singleton.mp hr
                  exact hg.1
          · rw [step_register_invalid hb hg]; exact ⟨hwf, hiff, hkey⟩

/-- The session invariant holds after any interaction sequence, given it
holds at the start. -/
theorem run_preserves_invariant (sha : String → String) (ops : List Op)
    (s : Option Json × Session)
    (hwf : ∀ kv ∈ load_users s.1, kv.1 ≠ "")
    (hiff : s.2.username ≠ "" ↔ s.2.logged_in = true)
    (hkey : s.2.logged_in = true →
      find_user s.2.username (load_users s.1) ≠ none) :
    (∀ kv ∈ load_users (run sha s ops).1, kv.1 ≠ "") ∧
    ((run sha s ops).2.username ≠ "" ↔ (run sha s ops).2.logged_in = true) ∧
    ((run sha s ops).2.logged_in = true →
      find_user (run sha s ops).2.username (load_users (run sha s ops).1) ≠ none) := by
  induction ops generalizing s with
  | nil => exact ⟨hwf, hiff, hkey⟩
  | cons op rest ih =>
      have hstep := step_preserves_invariant sha s op hwf hiff hkey
      exact ih (step sha s op) hstep.1 hstep.2.1 hstep.2.2

/-- C3: in every state reachable from the initial Anonymous session by
login, logout and register interactions (over a users file whose keys
are all non-empty, as any file written by this program's sign-up flow
is), `username` is non-empty iff `logged_in` is true, and when logged in
`username` is a key of the credential store — keys are never removed, so
in particular it was a key at the moment of the successful login. -/
theorem session_identity_invariant (sha : String → String) (f0 : Option Json)
    (h0 : ∀ kv ∈ load_users f0, kv.1 ≠ "") (ops : List Op) :
    ((run sha (f0, init_session) ops).2.username ≠ "" ↔
      (run sha (f0, init_session) ops).2.logged_in = true) ∧
    ((run sha (f0, init_session) ops).2.logged_in = true →
      find_user (run sha (f0, init_session) ops).2.username
        (load_users (run sha (f0, init_session) ops).1) ≠ none) := by
  have h := run_preserves_invariant sha ops (f0, init_session) h0
    (by simp [init_session]) (by simp [init_session])
  exact ⟨h.2.1, h.2.2⟩

/-- Witness for C3 at a concrete input: start from an absent users file,
sign up "ann" and log in as "ann". -/
theorem session_identity_invariant_witness :
    ((run id (none, init_session)
        [Op.register "ann" "pw", Op.login "ann" "pw"]).2.username ≠ "" ↔
      (run id (none, init_session)
        [Op.register "ann" "pw", Op.login "ann" "pw"]).2.logged_in = true) ∧
    ((run id (none, init_session)
        [Op.register "ann" "pw", Op.login "ann" "pw"]).2.logged_in = true →
      find_user (run id (none, init_session)
          [Op.register "ann" "pw", Op.login "ann" "pw"]).2.username
        (load_users (run id (none, init_session)
          [Op.register "ann" "pw", Op.login "ann" "pw"]).1) ≠ none) :=
  session_identity_invariant id none
    (fun kv hkv => absurd hkv (List.not_mem_nil kv))
    [Op.register "ann" "pw", Op.login "ann" "pw"]

/-- C4: from an Anonymous session, `login u p` yields the Authenticated
session with identity `u` exactly when `verify_user u p` is true and
otherwise leaves the state unchanged; from any Authenticated session,
`logout` unconditionally yields the Anonymous session with empty
identity. -/
theorem session_transitions (sha : String → String) (f : Option Json)
    (u p w : String) :
    (verify_user sha f u p = true →
      step sha (f, ⟨false, w⟩) (Op.login u p) = (f, (⟨true, u⟩ : Session))) ∧
    (verify_user sha f u p = false →
      step sha (f, ⟨false, w⟩) (Op.login u p) = (f, (⟨false, w⟩ : Session))) ∧
    step sha (f, ⟨true, w⟩) Op.logout = (f, (⟨false, ""⟩ : Session)) := by
  refine ⟨fun h => ?_, fun h => ?_, ?_⟩
  · simp [step, h]
  · simp [step, h]
  · simp [step]

/-- Witness for C4 at a concrete input: a store holding "ann" with
digest of "pw" (identity digest function). -/
theorem session_transitions_witness :
    step id (some (Json.obj [("ann", Json.str "pw")]), init_session)
        (Op.login "ann" "pw")
      = (some (Json.obj [("ann", Json.str "pw")]), (⟨true, "ann"⟩ : Session)) ∧
    step id (some (Json.obj [("ann", Json.str "pw")]), init_session)
        (Op.login "ann" "bad")
      = (some (Json.obj [("ann", Json.str "pw")]), init_session) ∧
    step id (some (Json.obj [("ann", Json.str "pw")]), ⟨true, "ann"⟩) Op.logout
      = (some (Json.obj [("ann", Json.str "pw")]), (⟨false, ""⟩ : Session)) :=
  ⟨(session_transitions id (some (Json.obj [("ann", Json.str "pw")]))
      "ann" "pw" "").1 (by decide),
   (session_transitions id (some (Json.obj [("ann", Json.str "pw")]))
      "ann" "bad" "").2.1 (by decide),
   (session_transitions id (some (Json.obj [("ann", Json.str "pw")]))
      "ann" "x" "ann").2.2⟩

/-! ## C5 -/

/-- C5: loading a slot whose backing file does not exist yields the empty
container of the slot's shape — the empty list for `load_records`
(patients/doctors), the empty dict for `load_users` — without error,
and being pure functions they do so on every call. -/
theorem load_on_absent :
    load_records none = Json.arr [] ∧
    load_users none = ([] : List (String × Json)) :=
  ⟨rfl, rfl⟩

/-! ## C6 and C7 and C9: Add Patient -/

theorem add_patient_valid {inp : PatientInput}
    (h : inp.name ≠ "" ∧ inp.city ≠ "" ∧ inp.doctor ≠ "" ∧
      inp.doctor ≠ "No doctor available") (ps : List Patient) :
    add_patient ps inp =
      (some (ps.length + 1),
       ps ++ [⟨ps.length + 1, inp.name, inp.age, inp.gender, inp.city,
              inp.doctor, inp.timestamp⟩]) := by
  unfold add_patient
  rw [if_pos h]

theorem add_patients_list_cons (ps : List Patient) (inp : PatientInput)
    (rest : List PatientInput) :
    add_patients_list ps (inp :: rest) =
      add_patients_list (add_patient ps inp).2 rest := rfl

theorem add_patients_list_map_id (inputs : List PatientInput)
    (hv : ∀ inp ∈ inputs, inp.name ≠ "" ∧ inp.city ≠ "" ∧ inp.doctor ≠ "" ∧
      inp.doctor ≠ "No doctor available") (ps : List Patient) :
    (add_patients_list ps inputs).map Patient.id =
      ps.map Patient.id ++ List.range' (ps.length + 1) inputs.length := by
  induction inputs generalizing ps with
  | nil => simp [add_patients_list]
  | cons inp rest ih =>
      have hvi := hv inp (List.mem_cons_self ..)
      rw [add_patients_list_cons, add_patient_valid hvi ps,
        ih (fun i hi => hv i (List.mem_cons_of_mem _ hi))]
      simp [List.range'_succ]

/-- C6: submitting the Add Patient form N times with valid inputs,
starting from the empty collection, assigns ids 1, 2, ..., N in
insertion order, each id being the current collection length plus one. -/
theorem record_id_monotonicity (inputs : List PatientInput)
    (hv : ∀ inp ∈ inputs, inp.name ≠ "" ∧ inp.city ≠ "" ∧ inp.doctor ≠ "" ∧
      inp.doctor ≠ "No doctor available") :
    (add_patients_list [] inputs).map Patient.id =
      List.range' 1 inputs.length ∧
    (∀ ps : List Patient, ∀ inp ∈ inputs,
      (add_patient ps inp).1 = some (ps.length + 1)) := by
  constructor
  · simpa using add_patients_list_map_id inputs hv []
  · intro ps inp hmem
    rw [add_patient_valid (hv inp hmem) ps]

/-- Witness for C6 at a concrete input: two valid patient submissions. -/
theorem record_id_monotonicity_witness :
    (add_patients_list []
        [⟨"Ann", 30, "Female", "Paris", "Dr. Who", "t1"⟩,
         ⟨"Bob", 40, "Male", "Nice", "Dr. Who", "t2"⟩]).map Patient.id =
      List.range' 1 2 ∧
    (add_patient [] ⟨"Ann", 30, "Female", "Paris", "Dr. Who", "t1"⟩).1 = some 1 := by
  have h := record_id_monotonicity
    [⟨"Ann", 30, "Female", "Paris", "Dr. Who", "t1"⟩,
     ⟨"Bob", 40, "Male", "Nice", "Dr. Who", "t2"⟩] (by decide)
  exact ⟨h.1, h.2 [] ⟨"Ann", 30, "Female", "Paris", "Dr. Who", "t1"⟩
    (List.mem_cons_self ..)⟩

/-- C7: when the doctor collection is empty the selectbox offers only
the sentinel "No doctor available", and with it any Add Patient
submission fails validation: no id is assigned and the collection is
unchanged, whatever the other fields hold. -/
theorem add_patient_requires_doctor (patients : List Patient)
    (inp : PatientInput) (hd : inp.doctor ∈ doctor_options []) :
    (add_patient patients inp).1 = none ∧
    (add_patient patients inp).2 = patients := by
  have hsent : inp.doctor = "No doctor available" := by
    simpa [doctor_options] using hd
  have hneg : ¬(inp.name ≠ "" ∧ inp.city ≠ "" ∧ inp.doctor ≠ "" ∧
      inp.doctor ≠ "No doctor available") := fun hc => hc.2.2.2 hsent
  unfold add_patient
  rw [if_neg hneg]
  exact ⟨rfl, rfl⟩

/-- Witness for C7 at a concrete input: a fully filled form whose only
doctor option is the sentinel. -/
theorem add_patient_requires_doctor_witness :
    (add_patient [⟨1, "Ann", 30, "Female", "Paris", "Dr. Who", "t1"⟩]
      ⟨"Bob", 40, "Male", "Nice", "No doctor available", "t2"⟩).1 = none ∧
    (add_patient [⟨1, "Ann", 30, "Female", "Paris", "Dr. Who", "t1"⟩]
      ⟨"Bob", 40, "Male", "Nice", "No doctor available", "t2"⟩).2 =
      [⟨1, "Ann", 30, "Female", "Paris", "Dr. Who", "t1"⟩] :=
  add_patient_requires_doctor
    [⟨1, "Ann", 30, "Female", "Paris", "Dr. Who", "t1"⟩]
    ⟨"Bob", 40, "Male", "Nice", "No doctor available", "t2"⟩ (by decide)

/-- C9: a doctor whose name is exactly the sentinel string
"No doctor available" appears in the selectbox options (the doctor list
being non-empty), yet selecting it makes every Add Patient submission
fail validation: the equality check at src/app.py:131 rejects the
sentinel value even when it names a real doctor. -/
theorem sentinel_doctor_never_assigned (doctors : List Doctor) (d : Doctor)
    (hmem : d ∈ doctors) (hname : d.name = "No doctor available")
    (patients : List Patient) (inp : PatientInput) (hinp : inp.doctor = d.name) :
    d.name ∈ doctor_options doctors ∧
    (add_patient patients inp).1 = none ∧
    (add_patient patients inp).2 = patients := by
  have hne : doctors.isEmpty = false := by
    cases doctors with
    | nil => exact absurd hmem (List.not_mem_nil d)
    | cons hd tl => rfl
  have hsent : inp.doctor = "No doctor available" := hinp.trans hname
  have hneg : ¬(inp.name ≠ "" ∧ inp.city ≠ "" ∧ inp.doctor ≠ "" ∧
      inp.doctor ≠ "No doctor available") := fun hc => hc.2.2.2 hsent
  refine ⟨?_, ?_, ?_⟩
  · rw [doctor_options, hne]
    simpa using List.mem_map_of_mem Doctor.name hmem
  · unfold add_patient
    rw [if_neg hneg]
  · unfold add_patient
    rw [if_neg hneg]

/-- Witness for C9 at a concrete input: the doctor list holds a doctor
literally named "No doctor available". -/
theorem sentinel_doctor_never_assigned_witness :
    ("No doctor available" : String) ∈
      doctor_options [⟨1, "No doctor available", "ER", "Nice", "t0"⟩] ∧
    (add_patient [] ⟨"Bob", 40, "Male", "Nice", "No doctor available", "t2"⟩).1
      = none ∧
    (add_patient [] ⟨"Bob", 40, "Male", "Nice", "No doctor available", "t2"⟩).2
      = [] := by
  have h := sentinel_doctor_never_assigned
    [⟨1, "No doctor available", "ER", "Nice", "t0"⟩]
    ⟨1, "No doctor available", "ER", "Nice", "t0"⟩
    (List.mem_cons_self ..) rfl []
    ⟨"Bob", 40, "Male", "Nice", "No doctor available", "t2"⟩ rfl
  exact h

/-! ## C8: filtered views -/

/-- The three patients of the spec scenario for the filtered view. -/
def ann_patient : Patient := ⟨1, "Ann", 30, "Female", "Paris", "Dr. Who", "t1"⟩

def anna_patient : Patient := ⟨2, "Anna", 25, "Female", "Lyon", "Dr. Who", "t2"⟩

def bob_patient : Patient := ⟨3, "Bob", 40, "Male", "Nice", "Dr. Who", "t3"⟩

/-- C8: the name-filtered view keeps exactly the patients whose
lower-cased name contains the lower-cased search string, as a sublist
(insertion order preserved) of the collection; being a pure projection
it touches no storage.  On the spec scenario ("Ann", "Anna", "Bob";
search "an") it returns exactly "Ann" then "Anna". -/
theorem filtered_view_correct :
    (∀ (patients : List Patient) (search_name : String) (p : Patient),
      p ∈ filtered_patients patients search_name ↔
        p ∈ patients ∧
        contains_chars (lower_chars search_name) (lower_chars p.name) = true) ∧
    (∀ (patients : List Patient) (search_name : String),
      (filtered_patients patients search_name).Sublist patients) ∧
    (∀ (doctors : List Doctor) (search_name : String) (d : Doctor),
      d ∈ filtered_doctors doctors search_name ↔
        d ∈ doctors ∧
        contains_chars (lower_chars search_name) (lower_chars d.name) = true) ∧
    (∀ (doctors : List Doctor) (search_name : String),
      (filtered_doctors doctors search_name).Sublist doctors) ∧
    filtered_patients [ann_patient, anna_patient, bob_patient] "an"
      = [ann_patient, anna_patient] := by
  refine ⟨fun ps s p => List.mem_filter, fun ps s => List.filter_sublist ps,
    fun ds s d => List.mem_filter, fun ds s => List.filter_sublist ds, ?_⟩
  decide

/-! ## C10 -/

/-- C10: if the users file holds a JSON document whose root is not an
object, `load_users` returns the empty dict, every `verify_user` returns
`False`, and every `add_user` succeeds exactly as on an empty store
(writing a fresh one-entry dict). -/
theorem non_object_users_as_empty (sha : String → String) (j : Json)
    (hj : ∀ kvs : List (String × Json), j ≠ Json.obj kvs) :
    load_users (some j) = [] ∧
    (∀ u p : String, verify_user sha (some j) u p = false) ∧
    (∀ u p : String, (add_user sha (some j) u p).1 = true ∧
      (add_user sha (some j) u p).2 =
        some (Json.obj [(u, Json.str (hash_password sha p))])) := by
  have hload : load_users (some j) = [] := by
    cases j with
    | obj kvs => exact absurd rfl (hj kvs)
    | null => rfl
    | bool b => rfl
    | num n => rfl
    | str s => rfl
    | arr xs => rfl
  refine ⟨hload, fun u p => ?_, fun u p => ?_⟩
  · unfold verify_user
    rw [hload, find_user_nil]
  · have hnone : find_user u (load_users (some j)) = none := by
      rw [hload, find_user_nil]
    constructor
    · exact (add_user_fst_true_iff sha (some j) u p).mpr hnone
    · rw [add_user_snd_of_none hnone, hload]
      rfl

/-- Witness for C10 at a concrete input: the users file holding the JSON
list `[]`. -/
theorem non_object_users_as_empty_witness :
    load_users (some (Json.arr [])) = [] ∧
    verify_user id (some (Json.arr [])) "alice" "pw" = false ∧
    (add_user id (some (Json.arr [])) "alice" "pw").1 = true ∧
    (add_user id (some (Json.arr [])) "alice" "pw").2 =
      some (Json.obj [("alice", Json.str (hash_password id "pw"))]) := by
  have h := non_object_users_as_empty id (Json.arr [])
    (fun kvs hk => Json.noConfusion hk)
  exact ⟨h.1, h.2.1 "alice" "pw", (h.2.2 "alice" "pw").1, (h.2.2 "alice" "pw").2⟩

end HospitalApp
